import Mathlib

/-!
# Verification of the rtmixer control-side session (`src/rtmixer.py`)

Shallow embedding of the control-thread logic of `rtmixer.py`:
the `RingBuffer` wrapper, the `_Base` session (`_enqueue`,
`_drain_result_q`, the `actions` property, `cancel`, `_check_channels`)
and the submission methods of `Mixer` and `Recorder`
(`play_buffer`, `play_ringbuffer`, `record_buffer`, `record_ringbuffer`).

Pointers to heap-allocated `struct action` records are modelled as
natural-number handles; a session allocates fresh handles from a counter
(`next`), mirroring the fact that every `_ffi.new('struct action*', ...)`
call yields a distinct pointer.  The PortAudio ring-buffer C functions
(`PaUtil_InitializeRingBuffer`, `PaUtil_WriteRingBuffer`,
`PaUtil_ReadRingBuffer`) are not part of the Python source; they are
modelled from the specification of §4.1 (power-of-two capacity, write
copies `min(requested, free)` whole elements, read symmetric, never
overwrites, never under-reads).
-/

namespace RTMixer

/-- Error taxonomy of the control-side API, matching the exceptions the
Python code raises. -/
inductive RtErr where
  /-- Raised as `ValueError('size must be a power of 2')` in
  `RingBuffer.__init__`. -/
  | InvalidCapacity
  /-- Raised as `RuntimeError('Action queue is full')` in `_Base._enqueue`. -/
  | QueueFull
  /-- Raised as `ValueError` by `_Base._check_channels` (channel number too
  large, or channel numbers not starting with 1). -/
  | InvalidChannelMapping
  /-- Raised as `ValueError` by Python's `max()` on an empty mapping inside
  `_Base._check_channels`. -/
  | EmptyMapping
  /-- Raised as `ValueError('Incompatible elementsize')` in
  `play_ringbuffer` / `record_ringbuffer`. -/
  | IncompatibleElementSize
  deriving Repr, DecidableEq

/-- Value of `sizeof('struct action*')` on the 64-bit target. -/
def sizeof_action_ptr : Nat := 8

/-- Value of `_lib.ULONG_MAX` on the 64-bit target: the "unlimited"
sentinel used as `total_frames` for ring-buffer-backed actions. -/
def ULONG_MAX : Nat := 2 ^ 64 - 1

/-- The `action_type` enum of the C extension. -/
inductive ActionType where
  | PLAY_BUFFER
  | PLAY_RINGBUFFER
  | RECORD_BUFFER
  | RECORD_RINGBUFFER
  | CANCEL
  deriving Repr, DecidableEq

/-- One `struct action` record, as filled in by the Python code.
Fields that the Python dict does not set are zero-initialised by cffi;
`action` is the target handle of a `CANCEL` action (`NULL` = `none`). -/
structure Action where
  type : ActionType
  allow_belated : Bool
  requested_time : Nat
  total_frames : Nat := 0
  channels : Nat := 0
  mapping : List Nat := []
  action : Option Nat := none
  deriving Repr, DecidableEq

/-- Repeated-halving test used by `isPowerOfTwoB`; the first argument is
fuel bounding the recursion depth. -/
def isPow2Aux : Nat → Nat → Bool
  | _, 0 => false
  | _, 1 => true
  | 0, _ + 2 => false
  | fuel + 1, n + 2 => (n + 2) % 2 == 0 && isPow2Aux fuel ((n + 2) / 2)

/-- Decide whether a natural number is a power of two, by repeated
halving. -/
def isPowerOfTwoB (n : Nat) : Bool := isPow2Aux n n

/-- The state of one `PaUtilRingBuffer` holding action-pointer elements:
its two C struct fields checked by the Python constructor, plus the
queued handles, oldest first. -/
structure RingBuffer where
  elementSizeBytes : Nat
  bufferSize : Nat
  data : List Nat
  deriving Repr, DecidableEq

/-- Modelled from the spec: `PaUtil_InitializeRingBuffer` (PortAudio C
source, not under `src/`); §4.1: "Construction fails with an
`InvalidCapacity` error if capacity is not a power of two."  On success
the buffer is empty with the requested element size and capacity. -/
def PaUtil_InitializeRingBuffer (elementsize size : Nat) :
    Except RtErr RingBuffer :=
  if isPowerOfTwoB size then
    .ok { elementSizeBytes := elementsize, bufferSize := size, data := [] }
  else
    .error .InvalidCapacity

/-- Embeds `RingBuffer.__init__(elementsize, size)`: calls
`PaUtil_InitializeRingBuffer` and raises `ValueError` when it reports
failure. -/
def RingBuffer.create (elementsize size : Nat) : Except RtErr RingBuffer :=
  PaUtil_InitializeRingBuffer elementsize size

/-- Modelled from the spec: `PaUtil_WriteRingBuffer` (C source not under
`src/`); §4.1: "copies as many whole elements as fit ..., up to
`min(requested, free_space)`; never blocks, never partial-copies".
Returns the updated buffer and the number of elements written. -/
def RingBuffer.write (rb : RingBuffer) (xs : List Nat) : RingBuffer × Nat :=
  let n := min xs.length (rb.bufferSize - rb.data.length)
  ({ rb with data := rb.data ++ xs.take n }, n)

/-- Modelled from the spec: `PaUtil_ReadRingBuffer` (C source not under
`src/`); §4.1: read is symmetric to write.  Returns the updated buffer
and the elements read (at most `size`, oldest first). -/
def RingBuffer.read (rb : RingBuffer) (size : Nat) : RingBuffer × List Nat :=
  let n := min size rb.data.length
  ({ rb with data := rb.data.drop n }, rb.data.take n)

/-- Control-side session state: the negotiated stream parameters, the
two queues, the live-action set (`self._actions`), and the allocation
counter for fresh action handles. -/
structure SessionState where
  input_channels : Nat
  output_channels : Nat
  samplesize_in : Nat
  samplesize_out : Nat
  action_q : RingBuffer
  result_q : RingBuffer
  actions : List Nat
  next : Nat
  deriving Repr, DecidableEq

/-- Python `set.add`: the live set is a Python `set`, modelled as a
duplicate-free list in insertion order. -/
def setAdd (l : List Nat) (a : Nat) : List Nat :=
  if a ∈ l then l else l ++ [a]

/-- The body of the `while self._result_q.read(...)` loop of
`_Base._drain_result_q`, unrolled over the queued handles: each handle
read from the Result Queue is removed from the live set.  (The Python
code asserts that the handle is present; under the system invariant it
always is, so `List.erase` is an equivalent embedding.) -/
def drainLoop (live : List Nat) : List Nat → List Nat
  | [] => live
  | a :: rest => drainLoop (live.erase a) rest

/-- Embeds `_Base._drain_result_q`: read the Result Queue until empty,
discarding each handle from the live set. -/
def drainResultQ (s : SessionState) : SessionState :=
  { s with
    actions := drainLoop s.actions s.result_q.data
    result_q := { s.result_q with data := [] } }

/-- The `actions` property of `_Base`: drain the Result Queue, then
return the live set (together with the post-drain session state). -/
def actionsProp (s : SessionState) : List Nat × SessionState :=
  let s' := drainResultQ s
  (s'.actions, s')

/-- Embeds `_Base._enqueue(action)`: drain the Result Queue, write the
action pointer to the Command Queue, raise `QueueFull` when fewer than
one element was written, and only then add the action to the live set.
The error branch carries the session state as mutated up to the raise. -/
def enqueue (s : SessionState) (a : Nat) :
    Except (RtErr × SessionState) SessionState :=
  let s1 := drainResultQ s
  let w := s1.action_q.write [a]
  let s2 := { s1 with action_q := w.1 }
  if w.2 ≠ 1 then .error (.QueueFull, s2)
  else .ok { s2 with actions := setAdd s2.actions a }

/-- Embeds `_Base.__init__(kind, qsize=16)`: create the Command Queue and
the Result Queue in sequence, both with the same single `qsize`
capacity, plus an empty live set.  Stream parameters are taken as
negotiated. -/
def mkBase (in_ch out_ch ss_in ss_out qsize : Nat) :
    Except RtErr SessionState :=
  match RingBuffer.create sizeof_action_ptr qsize with
  | .error e => .error e
  | .ok aq =>
    match RingBuffer.create sizeof_action_ptr qsize with
    | .error e => .error e
    | .ok rq =>
      .ok { input_channels := in_ch, output_channels := out_ch,
            samplesize_in := ss_in, samplesize_out := ss_out,
            action_q := aq, result_q := rq, actions := [], next := 0 }

/-- The `channels` argument of the submission methods: either a bare
channel count or an explicit 1-based channel mapping. -/
inductive ChannelsArg where
  | count (n : Nat)
  | mapping (m : List Nat)
  deriving Repr, DecidableEq

/-- The channel count an argument denotes: the length of an explicit
mapping, or the bare count. -/
def channelCountOf : ChannelsArg → Nat
  | .count n => n
  | .mapping m => m.length

/-- Embeds `_Base._check_channels(channels, kind)`: an explicit mapping gives
`channels = len(mapping)`; a bare count `n` gives the identity mapping
`(1, ..., n)`.  Fails when `max(mapping) > max_channels` or
`min(mapping) < 1` (and Python's `max()` itself fails on an empty
mapping). -/
def checkChannels (max_channels : Nat) (arg : ChannelsArg) :
    Except RtErr (Nat × List Nat) :=
  let (channels, mapping) :=
    match arg with
    | .mapping m => (m.length, m)
    | .count n => (n, (List.range n).map (· + 1))
  match mapping.max?, mapping.min? with
  | some mx, some mn =>
    if mx > max_channels then .error .InvalidChannelMapping
    else if mn < 1 then .error .InvalidChannelMapping
    else .ok (channels, mapping)
  | _, _ => .error .EmptyMapping

/-- Embeds `Mixer.play_buffer(buffer, channels, start, allow_belated)`:
validate the channels against the output channel count, build a
`PLAY_BUFFER` action with `total_frames = len(buffer) // channels //
samplesize`, enqueue it, and return its (fresh) handle together with
the record and the updated state.  `bufferLen` is the byte length of
the buffer. -/
def play_buffer (s : SessionState) (bufferLen : Nat) (channels : ChannelsArg)
    (start : Nat) (allow_belated : Bool) :
    Except (RtErr × SessionState) (Nat × Action × SessionState) :=
  match checkChannels s.output_channels channels with
  | .error e => .error (e, s)
  | .ok (ch, mp) =>
    let act : Action :=
      { type := .PLAY_BUFFER, allow_belated := allow_belated,
        requested_time := start,
        total_frames := bufferLen / ch / s.samplesize_out,
        channels := ch, mapping := mp }
    let i := s.next
    match enqueue { s with next := s.next + 1 } i with
    | .error (e, s') => .error (e, s')
    | .ok s' => .ok (i, act, s')

/-- Embeds `Mixer.play_ringbuffer(ringbuffer, channels=None, start,
allow_belated)`: when `channels` is `None` it defaults to
`elementsize // samplesize`; validates the channels, then requires
`elementsize == samplesize * channels`; the action's `total_frames` is
the `ULONG_MAX` sentinel. -/
def play_ringbuffer (s : SessionState) (rb_elementsize : Nat)
    (channels : Option ChannelsArg) (start : Nat) (allow_belated : Bool) :
    Except (RtErr × SessionState) (Nat × Action × SessionState) :=
  let arg := match channels with
    | none => ChannelsArg.count (rb_elementsize / s.samplesize_out)
    | some a => a
  match checkChannels s.output_channels arg with
  | .error e => .error (e, s)
  | .ok (ch, mp) =>
    if rb_elementsize ≠ s.samplesize_out * ch then
      .error (.IncompatibleElementSize, s)
    else
      let act : Action :=
        { type := .PLAY_RINGBUFFER, allow_belated := allow_belated,
          requested_time := start, total_frames := ULONG_MAX,
          channels := ch, mapping := mp }
      let i := s.next
      match enqueue { s with next := s.next + 1 } i with
      | .error (e, s') => .error (e, s')
      | .ok s' => .ok (i, act, s')

/-- Embeds `Recorder.record_buffer(buffer, channels, start, allow_belated)`:
as `play_buffer` but validated against the input channel count and the
input sample size. -/
def record_buffer (s : SessionState) (bufferLen : Nat)
    (channels : ChannelsArg) (start : Nat) (allow_belated : Bool) :
    Except (RtErr × SessionState) (Nat × Action × SessionState) :=
  match checkChannels s.input_channels channels with
  | .error e => .error (e, s)
  | .ok (ch, mp) =>
    let act : Action :=
      { type := .RECORD_BUFFER, allow_belated := allow_belated,
        requested_time := start,
        total_frames := bufferLen / ch / s.samplesize_in,
        channels := ch, mapping := mp }
    let i := s.next
    match enqueue { s with next := s.next + 1 } i with
    | .error (e, s') => .error (e, s')
    | .ok s' => .ok (i, act, s')

/-- Embeds `Recorder.record_ringbuffer(ringbuffer, channels=None, start,
allow_belated)`: as `play_ringbuffer` but against the input side. -/
def record_ringbuffer (s : SessionState) (rb_elementsize : Nat)
    (channels : Option ChannelsArg) (start : Nat) (allow_belated : Bool) :
    Except (RtErr × SessionState) (Nat × Action × SessionState) :=
  let arg := match channels with
    | none => ChannelsArg.count (rb_elementsize / s.samplesize_in)
    | some a => a
  match checkChannels s.input_channels arg with
  | .error e => .error (e, s)
  | .ok (ch, mp) =>
    if rb_elementsize ≠ s.samplesize_in * ch then
      .error (.IncompatibleElementSize, s)
    else
      let act : Action :=
        { type := .RECORD_RINGBUFFER, allow_belated := allow_belated,
          requested_time := start, total_frames := ULONG_MAX,
          channels := ch, mapping := mp }
      let i := s.next
      match enqueue { s with next := s.next + 1 } i with
      | .error (e, s') => .error (e, s')
      | .ok s' => .ok (i, act, s')

/-- Embeds `_Base.cancel(action, time=0, allow_belated=True)`: build a `CANCEL`
action whose `action` field references the target handle, enqueue it,
and return its handle. -/
def cancel (s : SessionState) (target : Nat) (time : Nat)
    (allow_belated : Bool) :
    Except (RtErr × SessionState) (Nat × Action × SessionState) :=
  let act : Action :=
    { type := .CANCEL, allow_belated := allow_belated,
      requested_time := time, action := some target }
  let i := s.next
  match enqueue { s with next := s.next + 1 } i with
  | .error (e, s') => .error (e, s')
  | .ok s' => .ok (i, act, s')

/-- Events of the control-side/audio-side system, as they affect the
live set and the queues: a control-thread submission of a handle via
`_enqueue` (the common path of `cancel` and of every `play_*` /
`record_*` call), a read of the `actions` property, and the audio
callback retiring a handle into the Result Queue. -/
inductive Event where
  | submit (a : Nat)
  | readActions
  | retire (a : Nat)
  deriving Repr, DecidableEq

/-- One step of the session/environment system.  `retire` models the
audio callback writing one action pointer to the Result Queue (the
write is dropped when the Result Queue is full, spec §4.2 step 3). -/
def stepEv (s : SessionState) : Event → SessionState
  | .submit a =>
    match enqueue s a with
    | .ok s' => s'
    | .error (_, s') => s'
  | .readActions => (actionsProp s).2
  | .retire a => { s with result_q := (s.result_q.write [a]).1 }

/-- Run a sequence of events from a session state. -/
def runEvents (s : SessionState) : List Event → SessionState
  | [] => s
  | e :: t => runEvents (stepEv s e) t

/-- The set the `actions` property would return at state `s` (the live
set after draining the Result Queue). -/
def liveAfterDrain (s : SessionState) : List Nat :=
  drainLoop s.actions s.result_q.data

/-- A concrete session used by the witnesses: 2 input and 2 output
channels, 4-byte (`float32`) samples, queue capacity 16; two actions
live, one of them (handle 0) already sitting in the Result Queue. -/
def sampleSession : SessionState :=
  { input_channels := 2, output_channels := 2,
    samplesize_in := 4, samplesize_out := 4,
    action_q := { elementSizeBytes := 8, bufferSize := 16, data := [] },
    result_q := { elementSizeBytes := 8, bufferSize := 16, data := [0] },
    actions := [0, 1], next := 2 }

/-- A concrete session whose Command Queue (capacity 1) is full. -/
def fullSession : SessionState :=
  { input_channels := 2, output_channels := 2,
    samplesize_in := 4, samplesize_out := 4,
    action_q := { elementSizeBytes := 8, bufferSize := 1, data := [5] },
    result_q := { elementSizeBytes := 8, bufferSize := 1, data := [] },
    actions := [5], next := 6 }

/-- A concrete freshly constructed session (both queues empty). -/
def freshSession : SessionState :=
  { input_channels := 2, output_channels := 2,
    samplesize_in := 4, samplesize_out := 4,
    action_q := { elementSizeBytes := 8, bufferSize := 16, data := [] },
    result_q := { elementSizeBytes := 8, bufferSize := 16, data := [] },
    actions := [], next := 0 }

/-- The action record a successful submission returns (`none` on
failure). -/
def resultAction :
    Except (RtErr × SessionState) (Nat × Action × SessionState) → Option Action
  | .ok (_, act, _) => some act
  | .error _ => none

/-- The session state after `enqueue sampleSession 7`: handle 0 drained
out, handle 7 appended to the Command Queue and added to the live set. -/
def okStateC10 : SessionState :=
  { input_channels := 2, output_channels := 2,
    samplesize_in := 4, samplesize_out := 4,
    action_q := { elementSizeBytes := 8, bufferSize := 16, data := [7] },
    result_q := { elementSizeBytes := 8, bufferSize := 16, data := [] },
    actions := [1, 7], next := 2 }

/-- Result of `play_buffer sampleSession 8 (.mapping [1, 1]) 0 true`:
the duplicate mapping `[1, 1]` is accepted and the action enqueued. -/
def dupMapResult : Nat × Action × SessionState :=
  (2,
   { type := .PLAY_BUFFER, allow_belated := true, requested_time := 0,
     total_frames := 1, channels := 2, mapping := [1, 1], action := none },
   { input_channels := 2, output_channels := 2,
     samplesize_in := 4, samplesize_out := 4,
     action_q := { elementSizeBytes := 8, bufferSize := 16, data := [2] },
     result_q := { elementSizeBytes := 8, bufferSize := 16, data := [] },
     actions := [1, 2], next := 3 })

/-- The action `play_buffer sampleSession 32 (.count 1) 0 true` builds. -/
def actPlayW : Action :=
  { type := .PLAY_BUFFER, allow_belated := true, requested_time := 0,
    total_frames := 8, channels := 1, mapping := [1], action := none }

/-- The action `record_buffer sampleSession 32 (.count 1) 0 true` builds. -/
def actRecW : Action :=
  { type := .RECORD_BUFFER, allow_belated := true, requested_time := 0,
    total_frames := 8, channels := 1, mapping := [1], action := none }

/-- The action `play_ringbuffer sampleSession 4 (some (.count 1)) 0 true`
builds. -/
def actPlayRW : Action :=
  { type := .PLAY_RINGBUFFER, allow_belated := true, requested_time := 0,
    total_frames := ULONG_MAX, channels := 1, mapping := [1], action := none }

/-- The action `record_ringbuffer sampleSession 4 (some (.count 1)) 0 true`
builds. -/
def actRecRW : Action :=
  { type := .RECORD_RINGBUFFER, allow_belated := true, requested_time := 0,
    total_frames := ULONG_MAX, channels := 1, mapping := [1], action := none }

/-! ## Helper lemmas -/

/-- Correctness of the fuelled power-of-two test. -/
theorem isPow2Aux_iff : ∀ (fuel n : Nat), n ≤ fuel →
    (isPow2Aux fuel n = true ↔ ∃ k, n = 2 ^ k) := by
  intro fuel
  induction fuel with
  | zero =>
    intro n hn
    have h0 : n = 0 := Nat.le_zero.mp hn
    subst h0
    constructor
    · intro h; simp [isPow2Aux] at h
    · rintro ⟨k, hk⟩
      have := pow_pos (show 0 < 2 by norm_num) k
      omega
  | succ f ihf =>
    intro n hn
    match n with
    | 0 =>
      constructor
      · intro h; simp [isPow2Aux] at h
      · rintro ⟨k, hk⟩
        have := pow_pos (show 0 < 2 by norm_num) k
        omega
    | 1 =>
      constructor
      · intro _; exact ⟨0, rfl⟩
      · intro _; rfl
    | m + 2 =>
      have hrec := ihf ((m + 2) / 2) (by omega)
      simp only [isPow2Aux, Bool.and_eq_true, beq_iff_eq]
      rw [hrec]
      constructor
      · rintro ⟨hev, k, hk⟩
        refine ⟨k + 1, ?_⟩
        have h2 : 2 ^ (k + 1) = 2 ^ k * 2 := pow_succ 2 k
        omega
      · rintro ⟨k, hk⟩
        match k, hk with
        | 0, hk => simp at hk
        | j + 1, hk =>
          have h2 : 2 ^ (j + 1) = 2 ^ j * 2 := pow_succ 2 j
          exact ⟨by omega, j, by omega⟩

/-- The boolean power-of-two test agrees with the mathematical notion. -/
theorem isPowerOfTwoB_iff (n : Nat) : isPowerOfTwoB n = true ↔ ∃ k, n = 2 ^ k :=
  isPow2Aux_iff n n (Nat.le_refl n)

/-- A successful ring-buffer construction yields an empty buffer with
the requested element size and capacity. -/
theorem create_ok_shape (es n : Nat) (rb : RingBuffer)
    (h : RingBuffer.create es n = .ok rb) :
    rb = { elementSizeBytes := es, bufferSize := n, data := [] } := by
  simp only [RingBuffer.create, PaUtil_InitializeRingBuffer] at h
  split at h
  · cases h; rfl
  · cases h

/-- Draining never adds a handle to the live set. -/
theorem not_mem_drainLoop (a : Nat) (rq : List Nat) (live : List Nat)
    (h : a ∉ live) : a ∉ drainLoop live rq := by
  induction rq generalizing live with
  | nil => exact h
  | cons b rest ih =>
    exact ih _ (fun hmem => h (List.mem_of_mem_erase hmem))

/-- Every handle in the Result Queue is removed from a duplicate-free
live set by the drain. -/
theorem not_mem_drainLoop_of_mem (live rq : List Nat) (hnd : live.Nodup)
    (a : Nat) (ha : a ∈ rq) : a ∉ drainLoop live rq := by
  induction rq generalizing live with
  | nil => cases ha
  | cons b rest ih =>
    rcases List.mem_cons.mp ha with rfl | ha'
    · exact not_mem_drainLoop a rest _ hnd.not_mem_erase
    · exact ih (live.erase b) (hnd.erase b) ha'

/-- Draining a concatenation drains the two parts in order. -/
theorem drainLoop_append (live r1 r2 : List Nat) :
    drainLoop live (r1 ++ r2) = drainLoop (drainLoop live r1) r2 := by
  induction r1 generalizing live with
  | nil => rfl
  | cons b rest ih => simp [drainLoop, ih]

/-- Absence from the drained live set survives further Result Queue
entries. -/
theorem not_mem_drainLoop_append (a : Nat) (live rq xs : List Nat)
    (h : a ∉ drainLoop live rq) : a ∉ drainLoop live (rq ++ xs) := by
  rw [drainLoop_append]
  exact not_mem_drainLoop a xs _ h

/-- Membership in a Python-set insertion. -/
theorem mem_setAdd_iff (l : List Nat) (a b : Nat) :
    a ∈ setAdd l b ↔ a ∈ l ∨ a = b := by
  unfold setAdd
  split
  · constructor
    · exact Or.inl
    · rintro (h | rfl)
      · exact h
      · assumption
  · simp [List.mem_append]

/-- An inserted element is a member. -/
theorem self_mem_setAdd (l : List Nat) (a : Nat) : a ∈ setAdd l a :=
  (mem_setAdd_iff l a a).mpr (Or.inr rfl)

/-- Writing one element to a ring buffer with a free slot appends it and
reports one element written. -/
theorem write_one_of_room (rb : RingBuffer) (x : Nat)
    (h : rb.data.length < rb.bufferSize) :
    rb.write [x] = ({ rb with data := rb.data ++ [x] }, 1) := by
  have hmin : min ([x] : List Nat).length (rb.bufferSize - rb.data.length) = 1 := by
    show min 1 (rb.bufferSize - rb.data.length) = 1
    omega
  simp only [RingBuffer.write, hmin]
  rfl

/-- Writing one element to a full ring buffer leaves it unchanged and
reports zero elements written. -/
theorem write_zero_of_full (rb : RingBuffer) (x : Nat)
    (h : rb.bufferSize ≤ rb.data.length) :
    rb.write [x] = (rb, 0) := by
  have h0 : rb.bufferSize - rb.data.length = 0 := Nat.sub_eq_zero_of_le h
  simp [RingBuffer.write, h0]

/-- With the Command Queue full, `_enqueue` raises `QueueFull` and the
session state is exactly the post-drain state. -/
theorem enqueue_full_eq (s : SessionState) (a : Nat)
    (hfull : s.action_q.bufferSize ≤ s.action_q.data.length) :
    enqueue s a = .error (.QueueFull, drainResultQ s) := by
  have hdq : (drainResultQ s).action_q = s.action_q := rfl
  have hw := write_zero_of_full s.action_q a hfull
  simp only [enqueue, hdq, hw]
  rfl

/-- With a free Command Queue slot, `_enqueue` succeeds: the handle is
appended to the Command Queue and added to the drained live set. -/
theorem enqueue_ok_of_room (s : SessionState) (a : Nat)
    (h : s.action_q.data.length < s.action_q.bufferSize) :
    enqueue s a = .ok
      { s with
        action_q := { s.action_q with data := s.action_q.data ++ [a] },
        result_q := { s.result_q with data := [] },
        actions := setAdd (drainLoop s.actions s.result_q.data) a } := by
  have hdq : (drainResultQ s).action_q = s.action_q := rfl
  have hw := write_one_of_room s.action_q a h
  simp only [enqueue, hdq, hw]
  rfl

/-- The only error `_enqueue` raises is `QueueFull`. -/
theorem enqueue_error_is_queueFull (s : SessionState) (a : Nat)
    (e : RtErr) (s' : SessionState) (h : enqueue s a = .error (e, s')) :
    e = .QueueFull := by
  simp only [enqueue] at h
  split at h
  · injection h with h'
    exact (congrArg Prod.fst h').symm
  · cases h

/-- Either `_enqueue` succeeds with the handle added to the drained live
set, or it fails with `QueueFull` on the drained state with the queue
untouched. -/
theorem enqueue_state_cases (s : SessionState) (b : Nat) :
    (enqueue s b = .ok
      { drainResultQ s with
        action_q := ((drainResultQ s).action_q.write [b]).1,
        actions := setAdd (drainResultQ s).actions b })
  ∨ (enqueue s b = .error (.QueueFull,
      { drainResultQ s with
        action_q := ((drainResultQ s).action_q.write [b]).1 })) := by
  simp only [enqueue]
  by_cases hc : ((drainResultQ s).action_q.write [b]).2 ≠ 1
  · right; rw [if_pos hc]
  · left; rw [if_neg hc]

/-- Running a concatenation of event lists runs them in sequence. -/
theorem runEvents_append (s : SessionState) (t₁ t₂ : List Event) :
    runEvents s (t₁ ++ t₂) = runEvents (runEvents s t₁) t₂ := by
  induction t₁ generalizing s with
  | nil => rfl
  | cons e t ih => simp [runEvents, ih]

/-- A handle absent from the drained live set stays absent across any
events that do not submit it again: reads and submissions only drain
(and add other handles), and retirements only grow the Result Queue,
whose drain only erases. -/
theorem liveAfterDrain_stable (a : Nat) :
    ∀ (evs : List Event) (s : SessionState),
      a ∉ liveAfterDrain s → Event.submit a ∉ evs →
      a ∉ liveAfterDrain (runEvents s evs) := by
  intro evs
  induction evs with
  | nil => intro s h _; exact h
  | cons e t ih =>
    intro s h hn
    have hne : e ≠ Event.submit a := fun he => hn (he ▸ List.mem_cons_self e t)
    have hnt : Event.submit a ∉ t := fun hm => hn (List.mem_cons_of_mem e hm)
    refine ih (stepEv s e) ?_ hnt
    cases e with
    | submit b =>
      have hab : a ≠ b := fun hba => hne (by rw [hba])
      rcases enqueue_state_cases s b with hok | herr
      · simp only [stepEv, hok]
        show a ∉ drainLoop (setAdd (drainResultQ s).actions b) _
        show a ∉ drainLoop (setAdd (drainResultQ s).actions b) (drainResultQ s).result_q.data
        intro hmem
        rcases (mem_setAdd_iff _ a b).mp hmem with h1 | h2
        · exact h h1
        · exact hab h2
      · simp only [stepEv, herr]
        exact h
    | readActions =>
      show a ∉ liveAfterDrain (drainResultQ s)
      exact h
    | retire b =>
      show a ∉ drainLoop s.actions ((s.result_q.write [b]).1).data
      have hdata : ((s.result_q.write [b]).1).data =
          s.result_q.data ++ List.take (min 1 (s.result_q.bufferSize - s.result_q.data.length)) [b] := rfl
      rw [hdata]
      exact not_mem_drainLoop_append a s.actions s.result_q.data _ h

/-- A successful channel check returns the channel count determined by
the argument: the length of an explicit mapping, or the bare count. -/
theorem checkChannels_ok_count (mc : Nat) (arg : ChannelsArg) (ch : Nat)
    (mp : List Nat) (h : checkChannels mc arg = .ok (ch, mp)) :
    ch = channelCountOf arg := by
  cases arg with
  | mapping m =>
    simp only [checkChannels] at h
    split at h
    · split at h
      · cases h
      · split at h
        · cases h
        · injection h with h'
          exact (congrArg Prod.fst h').symm
    · cases h
  | count n =>
    simp only [checkChannels] at h
    split at h
    · split at h
      · cases h
      · split at h
        · cases h
        · injection h with h'
          exact (congrArg Prod.fst h').symm
    · cases h

/-- Characterisation of `_check_channels` on an explicit non-empty
mapping: it succeeds exactly when every mapped channel lies in
`[1, max_channels]`, and only range violations are rejected. -/
theorem checkChannels_mapping_spec (mc : Nat) (m : List Nat) (hne : m ≠ []) :
    ((∀ c ∈ m, 1 ≤ c ∧ c ≤ mc) →
        checkChannels mc (.mapping m) = .ok (m.length, m))
  ∧ (¬ (∀ c ∈ m, 1 ≤ c ∧ c ≤ mc) →
        checkChannels mc (.mapping m) = .error .InvalidChannelMapping) := by
  obtain ⟨mx, hmx⟩ : ∃ mx, m.max? = some mx := by
    cases hm : m.max? with
    | none => exact absurd (List.max?_eq_none_iff.mp hm) hne
    | some v => exact ⟨v, rfl⟩
  obtain ⟨mn, hmn⟩ : ∃ mn, m.min? = some mn := by
    cases hm : m.min? with
    | none => exact absurd (List.min?_eq_none_iff.mp hm) hne
    | some v => exact ⟨v, rfl⟩
  obtain ⟨hmxm, hmxb⟩ := List.max?_eq_some_iff'.mp hmx
  obtain ⟨hmnm, hmnb⟩ := List.min?_eq_some_iff'.mp hmn
  constructor
  · intro hall
    have h1 : ¬ mx > mc := by have := (hall mx hmxm).2; omega
    have h2 : ¬ mn < 1 := by have := (hall mn hmnm).1; omega
    simp only [checkChannels, hmx, hmn]
    rw [if_neg h1, if_neg h2]
  · intro hnall
    have hcase : mx > mc ∨ mn < 1 := by
      push_neg at hnall
      obtain ⟨c, hcm, hcv⟩ := hnall
      have h1 := hmxb c hcm
      have h2 := hmnb c hcm
      omega
    simp only [checkChannels, hmx, hmn]
    by_cases hgt : mx > mc
    · rw [if_pos hgt]
    · rw [if_neg hgt]
      have hlt : mn < 1 := by omega
      rw [if_pos hlt]

/-! ## Claims -/

/-- C1: reading the `actions` property first drains every entry
currently in the Result Queue, removing each drained action handle from
the internal live set, and then returns that (post-drain) set: the
returned set is the drained state's live set, the Result Queue is left
empty, and no drained handle is in the returned set. -/
theorem actions_reads_drain_first (s : SessionState)
    (hnd : s.actions.Nodup) :
    (actionsProp s).1 = (actionsProp s).2.actions ∧
    (actionsProp s).2 = drainResultQ s ∧
    (actionsProp s).2.result_q.data = [] ∧
    (∀ a ∈ s.result_q.data, a ∉ (actionsProp s).1) := by
  refine ⟨rfl, rfl, rfl, ?_⟩
  intro a ha
  exact not_mem_drainLoop_of_mem s.actions s.result_q.data hnd a ha

theorem actions_reads_drain_first_witness :
    sampleSession.actions.Nodup ∧
    (∀ a ∈ sampleSession.result_q.data, a ∉ (actionsProp sampleSession).1) :=
  ⟨by decide, (actions_reads_drain_first sampleSession (by decide)).2.2.2⟩

/-- C2: once a handle that was submitted (at most once in the whole
trace) has been absent from the set a `live_actions()` read would
return, no later sequence of submissions, reads and retirements can
make a `live_actions()` read return a set containing it again. -/
theorem live_actions_no_resurrection (s₀ : SessionState)
    (t₁ t₂ : List Event) (a : Nat)
    (honce : (t₁ ++ t₂).count (Event.submit a) ≤ 1)
    (hsub : Event.submit a ∈ t₁)
    (hgone : a ∉ (actionsProp (runEvents s₀ t₁)).1) :
    a ∉ (actionsProp (runEvents s₀ (t₁ ++ t₂))).1 := by
  have h1 : 0 < t₁.count (Event.submit a) := List.count_pos_iff.mpr hsub
  rw [List.count_append] at honce
  have hnotin : Event.submit a ∉ t₂ := by
    intro hmem
    have := List.count_pos_iff.mpr hmem
    omega
  rw [runEvents_append]
  exact liveAfterDrain_stable a t₂ (runEvents s₀ t₁) hgone hnotin

theorem live_actions_no_resurrection_witness :
    (([Event.submit 0, Event.retire 0] ++
        [Event.submit 1]).count (Event.submit 0) ≤ 1) ∧
    (Event.submit 0 ∈ [Event.submit 0, Event.retire 0]) ∧
    (0 ∉ (actionsProp
        (runEvents freshSession [Event.submit 0, Event.retire 0])).1) ∧
    (0 ∉ (actionsProp (runEvents freshSession
        ([Event.submit 0, Event.retire 0] ++ [Event.submit 1]))).1) :=
  ⟨by decide, by decide, by decide,
   live_actions_no_resurrection freshSession
     [Event.submit 0, Event.retire 0] [Event.submit 1] 0
     (by decide) (by decide) (by decide)⟩

/-- C3: when the Command Queue has no free slot, `_enqueue` (the common
path of every play/record/cancel submission) fails synchronously with
`QueueFull`, and no pending command in the queue is overwritten or
dropped: the Command Queue contents are exactly what they were before
the submission, so the caller may retry. -/
theorem submission_queue_full (s : SessionState) (a : Nat)
    (hfull : s.action_q.bufferSize ≤ s.action_q.data.length) :
    enqueue s a = .error (.QueueFull, drainResultQ s) ∧
    (drainResultQ s).action_q.data = s.action_q.data :=
  ⟨enqueue_full_eq s a hfull, rfl⟩

theorem submission_queue_full_witness :
    (fullSession.action_q.bufferSize ≤ fullSession.action_q.data.length) ∧
    enqueue fullSession 6 = .error (.QueueFull, drainResultQ fullSession) :=
  ⟨by decide, (submission_queue_full fullSession 6 (by decide)).1⟩

/-- C10: a submission that fails with `QueueFull` leaves the live set
exactly as it was after the pre-submission Result Queue drain; the
handle is added to the live set only when the write to the Command
Queue succeeded. -/
theorem enqueue_atomic_live_set (s : SessionState) (a : Nat) :
    (s.action_q.bufferSize ≤ s.action_q.data.length →
       enqueue s a = .error (.QueueFull, drainResultQ s) ∧
       (drainResultQ s).actions = drainLoop s.actions s.result_q.data)
  ∧ (∀ s', enqueue s a = .ok s' →
       s'.actions = setAdd (drainResultQ s).actions a) := by
  constructor
  · intro hfull
    exact ⟨enqueue_full_eq s a hfull, rfl⟩
  · intro s' h
    simp only [enqueue] at h
    split at h
    · cases h
    · injection h with h'
      rw [← h']

theorem enqueue_atomic_live_set_witness :
    (enqueue fullSession 6 = .error (.QueueFull, drainResultQ fullSession) ∧
     (drainResultQ fullSession).actions =
       drainLoop fullSession.actions fullSession.result_q.data) ∧
    okStateC10.actions = setAdd (drainResultQ sampleSession).actions 7 :=
  ⟨(enqueue_atomic_live_set fullSession 6).1 (by decide),
   (enqueue_atomic_live_set sampleSession 7).2 okStateC10 (by rfl)⟩

/-- C4: Ring Buffer construction fails with `InvalidCapacity` exactly
when the requested capacity is not a power of two; on every
power-of-two capacity it succeeds and the buffer has that capacity and
the requested element size. -/
theorem ringbuffer_create_power_of_two (elementsize size : Nat) :
    ((∃ k, size = 2 ^ k) →
        RingBuffer.create elementsize size =
          .ok { elementSizeBytes := elementsize, bufferSize := size,
                data := [] })
  ∧ (¬ (∃ k, size = 2 ^ k) →
        RingBuffer.create elementsize size = .error .InvalidCapacity) := by
  constructor
  · intro hp
    have hb : isPowerOfTwoB size = true := (isPowerOfTwoB_iff size).mpr hp
    simp [RingBuffer.create, PaUtil_InitializeRingBuffer, hb]
  · intro hnp
    have hb : isPowerOfTwoB size = false := by
      cases hb : isPowerOfTwoB size
      · rfl
      · exact absurd ((isPowerOfTwoB_iff size).mp hb) hnp
    simp [RingBuffer.create, PaUtil_InitializeRingBuffer, hb]

theorem ringbuffer_create_power_of_two_witness :
    RingBuffer.create 8 16 =
      .ok { elementSizeBytes := 8, bufferSize := 16, data := [] } ∧
    RingBuffer.create 8 12 = .error .InvalidCapacity :=
  ⟨(ringbuffer_create_power_of_two 8 16).1 ⟨4, by norm_num⟩,
   (ringbuffer_create_power_of_two 8 12).2 (fun hex =>
      absurd ((isPowerOfTwoB_iff 12).mpr hex) (by decide))⟩

/-- C5 counterexample: the mapping `[1, 1]` has distinct-count 1 but
channel count 2 on a 2-output-channel session, yet `play_buffer`
accepts it and enqueues the action instead of failing with
`InvalidChannelMapping`. -/
theorem play_buffer_duplicate_mapping_accepted :
    play_buffer sampleSession 8 (.mapping [1, 1]) 0 true =
      .ok dupMapResult ∧
    (∀ c ∈ ([1, 1] : List Nat), 1 ≤ c ∧ c ≤ sampleSession.output_channels) ∧
    ([1, 1] : List Nat).dedup.length ≠ channelCountOf (.mapping [1, 1]) :=
  ⟨by rfl, by decide, by decide⟩

/-- C5 amended: play/record submissions with an explicit non-empty
mapping validate only that every mapped channel lies within
`[1, max_channels]` (output channels for play, input channels for
record): an out-of-range mapping is rejected with
`InvalidChannelMapping` before anything is enqueued (the session state
is returned unchanged), and an in-range mapping is never rejected with
`InvalidChannelMapping`; the distinct-count of the mapping is not
checked. -/
theorem submission_mapping_validation (s : SessionState) (len st : Nat)
    (bel : Bool) (m : List Nat) (hne : m ≠ []) :
    (¬ (∀ c ∈ m, 1 ≤ c ∧ c ≤ s.output_channels) →
        play_buffer s len (.mapping m) st bel =
          .error (.InvalidChannelMapping, s))
  ∧ ((∀ c ∈ m, 1 ≤ c ∧ c ≤ s.output_channels) →
        ∀ s', play_buffer s len (.mapping m) st bel ≠
          .error (.InvalidChannelMapping, s'))
  ∧ (¬ (∀ c ∈ m, 1 ≤ c ∧ c ≤ s.input_channels) →
        record_buffer s len (.mapping m) st bel =
          .error (.InvalidChannelMapping, s))
  ∧ ((∀ c ∈ m, 1 ≤ c ∧ c ≤ s.input_channels) →
        ∀ s', record_buffer s len (.mapping m) st bel ≠
          .error (.InvalidChannelMapping, s')) := by
  refine ⟨?_, ?_, ?_, ?_⟩
  · intro hbad
    have herr := (checkChannels_mapping_spec s.output_channels m hne).2 hbad
    simp [play_buffer, herr]
  · intro hall s' hEq
    have hok := (checkChannels_mapping_spec s.output_channels m hne).1 hall
    simp only [play_buffer, hok] at hEq
    rcases enqueue_state_cases { s with next := s.next + 1 } s.next
      with h2 | h2
    · simp only [h2] at hEq
      cases hEq
    · simp only [h2] at hEq
      injection hEq with h'
      have hqf : RtErr.QueueFull = RtErr.InvalidChannelMapping :=
        congrArg Prod.fst h'
      cases hqf
  · intro hbad
    have herr := (checkChannels_mapping_spec s.input_channels m hne).2 hbad
    simp [record_buffer, herr]
  · intro hall s' hEq
    have hok := (checkChannels_mapping_spec s.input_channels m hne).1 hall
    simp only [record_buffer, hok] at hEq
    rcases enqueue_state_cases { s with next := s.next + 1 } s.next
      with h2 | h2
    · simp only [h2] at hEq
      cases hEq
    · simp only [h2] at hEq
      injection hEq with h'
      have hqf : RtErr.QueueFull = RtErr.InvalidChannelMapping :=
        congrArg Prod.fst h'
      cases hqf

theorem submission_mapping_validation_witness :
    play_buffer sampleSession 8 (.mapping [3]) 0 true =
      .error (.InvalidChannelMapping, sampleSession) ∧
    record_buffer sampleSession 8 (.mapping [3]) 0 true =
      .error (.InvalidChannelMapping, sampleSession) :=
  ⟨(submission_mapping_validation sampleSession 8 0 true [3]
      (by decide)).1 (by decide),
   (submission_mapping_validation sampleSession 8 0 true [3]
      (by decide)).2.2.1 (by decide)⟩

/-- C6: for flat-buffer play/record submissions the built action's
`total_frames` equals the buffer's byte length divided by the channel
count and by the sample size; for ring-buffer play/record submissions
`total_frames` is the `ULONG_MAX` "unlimited" sentinel. -/
theorem total_frames_fields (s : SessionState) (len st rb_es : Nat)
    (bel : Bool) (arg : ChannelsArg) (argO : Option ChannelsArg) :
    (∀ act, resultAction (play_buffer s len arg st bel) = some act →
        act.total_frames = len / channelCountOf arg / s.samplesize_out)
  ∧ (∀ act, resultAction (record_buffer s len arg st bel) = some act →
        act.total_frames = len / channelCountOf arg / s.samplesize_in)
  ∧ (∀ act, resultAction (play_ringbuffer s rb_es argO st bel) = some act →
        act.total_frames = ULONG_MAX)
  ∧ (∀ act, resultAction (record_ringbuffer s rb_es argO st bel) = some act →
        act.total_frames = ULONG_MAX) := by
  refine ⟨?_, ?_, ?_, ?_⟩
  · intro act hact
    cases hcc : checkChannels s.output_channels arg with
    | error e => simp [play_buffer, hcc, resultAction] at hact
    | ok p =>
      obtain ⟨ch, mp⟩ := p
      have hch := checkChannels_ok_count _ _ _ _ hcc
      simp only [play_buffer, hcc] at hact
      rcases enqueue_state_cases { s with next := s.next + 1 } s.next
        with h2 | h2
      · simp only [h2, resultAction] at hact
        injection hact with h'
        rw [← h', hch]
      · simp only [h2, resultAction] at hact
        cases hact
  · intro act hact
    cases hcc : checkChannels s.input_channels arg with
    | error e => simp [record_buffer, hcc, resultAction] at hact
    | ok p =>
      obtain ⟨ch, mp⟩ := p
      have hch := checkChannels_ok_count _ _ _ _ hcc
      simp only [record_buffer, hcc] at hact
      rcases enqueue_state_cases { s with next := s.next + 1 } s.next
        with h2 | h2
      · simp only [h2, resultAction] at hact
        injection hact with h'
        rw [← h', hch]
      · simp only [h2, resultAction] at hact
        cases hact
  · intro act hact
    cases argO with
    | none =>
      cases hcc : checkChannels s.output_channels
          (ChannelsArg.count (rb_es / s.samplesize_out)) with
      | error e => simp [play_ringbuffer, hcc, resultAction] at hact
      | ok p =>
        obtain ⟨ch, mp⟩ := p
        simp only [play_ringbuffer, hcc] at hact
        by_cases hes : rb_es ≠ s.samplesize_out * ch
        · rw [if_pos hes] at hact
          simp [resultAction] at hact
        · rw [if_neg hes] at hact
          rcases enqueue_state_cases { s with next := s.next + 1 } s.next
            with h2 | h2
          · simp only [h2, resultAction] at hact
            injection hact with h'
            rw [← h']
          · simp only [h2, resultAction] at hact
            cases hact
    | some a =>
      cases hcc : checkChannels s.output_channels a with
      | error e => simp [play_ringbuffer, hcc, resultAction] at hact
      | ok p =>
        obtain ⟨ch, mp⟩ := p
        simp only [play_ringbuffer, hcc] at hact
        by_cases hes : rb_es ≠ s.samplesize_out * ch
        · rw [if_pos hes] at hact
          simp [resultAction] at hact
        · rw [if_neg hes] at hact
          rcases enqueue_state_cases { s with next := s.next + 1 } s.next
            with h2 | h2
          · simp only [h2, resultAction] at hact
            injection hact with h'
            rw [← h']
          · simp only [h2, resultAction] at hact
            cases hact
  · intro act hact
    cases argO with
    | none =>
      cases hcc : checkChannels s.input_channels
          (ChannelsArg.count (rb_es / s.samplesize_in)) with
      | error e => simp [record_ringbuffer, hcc, resultAction] at hact
      | ok p =>
        obtain ⟨ch, mp⟩ := p
        simp only [record_ringbuffer, hcc] at hact
        by_cases hes : rb_es ≠ s.samplesize_in * ch
        · rw [if_pos hes] at hact
          simp [resultAction] at hact
        · rw [if_neg hes] at hact
          rcases enqueue_state_cases { s with next := s.next + 1 } s.next
            with h2 | h2
          · simp only [h2, resultAction] at hact
            injection hact with h'
            rw [← h']
          · simp only [h2, resultAction] at hact
            cases hact
    | some a =>
      cases hcc : checkChannels s.input_channels a with
      | error e => simp [record_ringbuffer, hcc, resultAction] at hact
      | ok p =>
        obtain ⟨ch, mp⟩ := p
        simp only [record_ringbuffer, hcc] at hact
        by_cases hes : rb_es ≠ s.samplesize_in * ch
        · rw [if_pos hes] at hact
          simp [resultAction] at hact
        · rw [if_neg hes] at hact
          rcases enqueue_state_cases { s with next := s.next + 1 } s.next
            with h2 | h2
          · simp only [h2, resultAction] at hact
            injection hact with h'
            rw [← h']
          · simp only [h2, resultAction] at hact
            cases hact

theorem total_frames_fields_witness :
    actPlayW.total_frames =
      32 / channelCountOf (.count 1) / sampleSession.samplesize_out ∧
    actRecW.total_frames =
      32 / channelCountOf (.count 1) / sampleSession.samplesize_in ∧
    actPlayRW.total_frames = ULONG_MAX ∧
    actRecRW.total_frames = ULONG_MAX :=
  ⟨(total_frames_fields sampleSession 32 0 4 true (.count 1)
      (some (.count 1))).1 actPlayW (by rfl),
   (total_frames_fields sampleSession 32 0 4 true (.count 1)
      (some (.count 1))).2.1 actRecW (by rfl),
   (total_frames_fields sampleSession 32 0 4 true (.count 1)
      (some (.count 1))).2.2.1 actPlayRW (by rfl),
   (total_frames_fields sampleSession 32 0 4 true (.count 1)
      (some (.count 1))).2.2.2 actRecRW (by rfl)⟩

/-- C7: a ring-buffer play/record submission with an explicit channel
argument whose element size differs from `channel_count * sample_size`
fails with `IncompatibleElementSize`, and nothing is enqueued: the
session state is returned unchanged. -/
theorem ringbuffer_elementsize_validation (s : SessionState)
    (rb_es st : Nat) (bel : Bool) (arg : ChannelsArg) :
    (∀ ch mp, checkChannels s.output_channels arg = .ok (ch, mp) →
        rb_es ≠ s.samplesize_out * ch →
        play_ringbuffer s rb_es (some arg) st bel =
          .error (.IncompatibleElementSize, s))
  ∧ (∀ ch mp, checkChannels s.input_channels arg = .ok (ch, mp) →
        rb_es ≠ s.samplesize_in * ch →
        record_ringbuffer s rb_es (some arg) st bel =
          .error (.IncompatibleElementSize, s)) := by
  constructor
  · intro ch mp hcc hne
    simp only [play_ringbuffer, hcc]
    rw [if_pos hne]
  · intro ch mp hcc hne
    simp only [record_ringbuffer, hcc]
    rw [if_pos hne]

theorem ringbuffer_elementsize_validation_witness :
    play_ringbuffer sampleSession 5 (some (.count 1)) 0 true =
      .error (.IncompatibleElementSize, sampleSession) ∧
    record_ringbuffer sampleSession 5 (some (.count 1)) 0 true =
      .error (.IncompatibleElementSize, sampleSession) :=
  ⟨(ringbuffer_elementsize_validation sampleSession 5 0 true
      (.count 1)).1 1 [1] (by rfl) (by decide),
   (ringbuffer_elementsize_validation sampleSession 5 0 true
      (.count 1)).2 1 [1] (by rfl) (by decide)⟩

/-- C8: `cancel(h, at_time, allow_belated)` builds a new `CANCEL` action
whose target field references `h`, appends it to the Command Queue, adds
it to the live set, and returns its handle right after enqueueing; the
target (if live after the drain) is still in the live set when `cancel`
returns, i.e. the call does not wait for the target to stop. -/
theorem cancel_builds_and_enqueues (s : SessionState) (target time : Nat)
    (bel : Bool)
    (hroom : s.action_q.data.length < s.action_q.bufferSize) :
    ∃ i act s', cancel s target time bel = .ok (i, act, s') ∧
      act.type = .CANCEL ∧ act.action = some target ∧
      act.requested_time = time ∧ act.allow_belated = bel ∧
      i ∈ s'.actions ∧
      s'.action_q.data = s.action_q.data ++ [i] ∧
      (target ∈ liveAfterDrain s → target ∈ s'.actions) := by
  have h' : ({ s with next := s.next + 1 } :
      SessionState).action_q.data.length <
      ({ s with next := s.next + 1 } : SessionState).action_q.bufferSize :=
    hroom
  have henq := enqueue_ok_of_room { s with next := s.next + 1 } s.next h'
  refine ⟨s.next,
    { type := .CANCEL, allow_belated := bel, requested_time := time,
      action := some target },
    { s with
      next := s.next + 1,
      action_q := { s.action_q with data := s.action_q.data ++ [s.next] },
      result_q := { s.result_q with data := [] },
      actions := setAdd (drainLoop s.actions s.result_q.data) s.next },
    ?_, rfl, rfl, rfl, rfl, ?_, rfl, ?_⟩
  · simp only [cancel, henq]
  · exact self_mem_setAdd _ _
  · intro hmem
    exact (mem_setAdd_iff _ _ _).mpr (Or.inl hmem)

theorem cancel_builds_and_enqueues_witness :
    ∃ i act s', cancel sampleSession 1 0 true = .ok (i, act, s') ∧
      act.action = some 1 ∧ i ∈ s'.actions ∧ 1 ∈ s'.actions := by
  obtain ⟨i, act, s', h1, _, h3, _, _, h6, _, h8⟩ :=
    cancel_builds_and_enqueues sampleSession 1 0 true (by decide)
  exact ⟨i, act, s', h1, h3, h6, h8 (by decide)⟩

/-- C9 counterexample: a session's two queues can never have different
capacities — `_Base.__init__` creates both from the one `qsize`
parameter, so no constructor argument yields distinct capacities. -/
theorem mkBase_no_independent_capacities :
    ¬ ∃ (in_ch out_ch ss_in ss_out qsize : Nat) (s : SessionState),
        mkBase in_ch out_ch ss_in ss_out qsize = .ok s ∧
        s.action_q.bufferSize ≠ s.result_q.bufferSize := by
  rintro ⟨a, b, c, d, q, s, hok, hne⟩
  cases hcr : RingBuffer.create sizeof_action_ptr q with
  | error e => simp only [mkBase, hcr] at hok; cases hok
  | ok rb =>
    simp only [mkBase, hcr] at hok
    injection hok with h'
    apply hne
    rw [← h']

/-- C9 amended: session construction takes a single queue-size
parameter `qsize` (default 16) used for both queues; construction
succeeds on power-of-two sizes with both the Command Queue and the
Result Queue having exactly that same capacity. -/
theorem mkBase_single_capacity (in_ch out_ch ss_in ss_out qsize : Nat)
    (hpow : ∃ k, qsize = 2 ^ k) :
    ∃ s, mkBase in_ch out_ch ss_in ss_out qsize = .ok s ∧
      s.action_q.bufferSize = qsize ∧ s.result_q.bufferSize = qsize := by
  have hb : isPowerOfTwoB qsize = true := (isPowerOfTwoB_iff qsize).mpr hpow
  have hcr : RingBuffer.create sizeof_action_ptr qsize =
      .ok { elementSizeBytes := sizeof_action_ptr, bufferSize := qsize,
            data := [] } := by
    simp [RingBuffer.create, PaUtil_InitializeRingBuffer, hb]
  refine ⟨{ input_channels := in_ch, output_channels := out_ch,
            samplesize_in := ss_in, samplesize_out := ss_out,
            action_q := { elementSizeBytes := sizeof_action_ptr,
                          bufferSize := qsize, data := [] },
            result_q := { elementSizeBytes := sizeof_action_ptr,
                          bufferSize := qsize, data := [] },
            actions := [], next := 0 }, ?_, rfl, rfl⟩
  simp [mkBase, hcr]

theorem mkBase_single_capacity_witness :
    ∃ s, mkBase 1 2 4 4 16 = .ok s ∧
      s.action_q.bufferSize = 16 ∧ s.result_q.bufferSize = 16 :=
  mkBase_single_capacity 1 2 4 4 16 ⟨4, by norm_num⟩

end RTMixer
